import Mathlib

/-!
Verification development for the `node-acme` ACME server.

This file gives a shallow embedding of the repository's core logic:

* `src/lib/pki.js` — CSR validation (`checkCSR`), the DNS-name regular
  expression, and the certificate serial-number generator;
* `src/lib/acme-server.js` — the object model (`Registration`,
  `Application`, `Authorization`, `Certificate`), the in-memory object
  store (`DB`), and the POST/GET request handlers relevant to the claims;
* the JWS verification front end (`ACMEJose.verify`, the `kid`-aware
  variant shipped with the server).

Conventions used throughout the embedding:

* JavaScript strings are Lean `String`s; `Date` instants are `Int`
  milliseconds since the epoch (the only operations the source performs on
  dates are comparison and offset arithmetic).
* A JavaScript field that may be `undefined` is an `Option`; the
  truthiness tests the source performs (`if (x)`) are `jsTruthy*` helpers
  (absent and the empty string are falsy; an array is truthy even when
  empty).
* In-place mutation of an object obtained live from the store is modelled
  as an immediate `put` of the updated record: in the source `db.get`
  returns the live reference, so every field assignment is instantly
  visible in the store, whether or not `db.put` is reached afterwards.
* External collaborators (node-forge DER parsing, JOSE signature checking,
  X.509 signing) are represented at their interface boundary: `checkCSR`
  operates on the structure forge's parser yields, and the CA's
  `issueCertificate` result is the record of the inputs handed to forge.
-/

namespace NodeAcme

/-- JS truthiness of an optional string: `undefined` and `""` are falsy. -/
def jsTruthy : Option String → Bool
  | none => false
  | some s => s ≠ ""

/-- JS truthiness of an optional array: any present array is truthy
(`if (req.payload.contact)`), even an empty one. -/
def jsTruthyList : Option (List String) → Bool
  | none => false
  | some _ => true

/-- `.toLowerCase()` on the ASCII strings the server handles. -/
def jsToLowerCase (s : String) : String := ⟨s.data.map Char.toLower⟩

/-! ## pki.js: the DNS-name regular expression

`let DNS_RE = /^([a-z0-9][a-z0-9-]{1,62}\.)+[a-z][a-z0-9-]{0,62}$/;`

Because neither character class contains `'.'`, a string matches exactly
when splitting it at every `'.'` yields at least two labels, all but the
last of shape `[a-z0-9][a-z0-9-]{1,62}` and the last of shape
`[a-z][a-z0-9-]{0,62}`. -/

def isLowerAZ (c : Char) : Bool := 'a' ≤ c && c ≤ 'z'

def isDigit09 (c : Char) : Bool := '0' ≤ c && c ≤ '9'

def isLowerAlnum (c : Char) : Bool := isLowerAZ c || isDigit09 c

def isLdh (c : Char) : Bool := isLowerAlnum c || c = '-'

/-- Split a character list at every `'.'` (the separators are dropped;
like JS `split('.')`, empty pieces are kept). -/
def splitLabels : List Char → List (List Char)
  | [] => [[]]
  | c :: cs =>
    if c = '.' then [] :: splitLabels cs
    else
      match splitLabels cs with
      | [] => [[c]]
      | l :: ls => (c :: l) :: ls

/-- `[a-z0-9][a-z0-9-]{1,62}` — a non-final label. -/
def dnsInnerLabel : List Char → Bool
  | [] => false
  | c :: rest =>
    isLowerAlnum c && 1 ≤ rest.length && rest.length ≤ 62 && rest.all isLdh

/-- `[a-z][a-z0-9-]{0,62}` — the final label. -/
def dnsLastLabel : List Char → Bool
  | [] => false
  | c :: rest => isLowerAZ c && rest.length ≤ 62 && rest.all isLdh

/-- `s.match(DNS_RE)` as a Boolean. -/
def dnsMatch (s : String) : Bool :=
  let parts := splitLabels s.data
  2 ≤ parts.length && (parts.dropLast.all dnsInnerLabel) &&
    dnsLastLabel (parts.getLastD [])

/-! ## pki.js: `checkCSR`

The input is the certification request as forge's DER parser yields it
(`parseCSR` itself — base64url rewriting plus `node-forge` — is an
external collaborator; all claims quantify over CSRs that parse). -/

/-- One entry of `csr.subject.attributes`. -/
structure SubjectAttr where
  name : String
  value : String
deriving DecidableEq, Repr

/-- One entry of an extension's `altNames` (`san.type` is 2 for dNSName). -/
structure AltName where
  sanType : Int
  value : String
deriving DecidableEq, Repr

/-- One entry of an `extensionRequest` attribute's `extensions`. -/
structure CsrExtension where
  name : String
  altNames : List AltName
deriving DecidableEq, Repr

/-- One entry of `csr.attributes`. -/
structure CsrAttr where
  name : String
  extensions : List CsrExtension
deriving DecidableEq, Repr

/-- A parsed certification request. -/
structure CSR where
  subjectAttributes : List SubjectAttr
  attributes : List CsrAttr
deriving DecidableEq, Repr

/-- Result of `checkCSR`: `{names: [...]}` or `{error: <message>}`. -/
inductive CheckCSRResult where
  | names (l : List String)
  | error (msg : String)
deriving DecidableEq, Repr

/-- Insert a key into the `names` object: JS `names[name] = true` keeps
the first-insertion position of an existing key. -/
def insertName (ns : List String) (name : String) : List String :=
  if ns.contains name then ns else ns ++ [name]

/-- `checkCSR` from `src/lib/pki.js`.

Faithful to the source, including its use of `Array.prototype.map`: the
`return {error: ...}` statements inside the `map` callbacks return from
the *callback*, so their values are discarded and only the callbacks'
side effects survive.  Each loop is therefore a fold over the mutable
variable it assigns (`commonName`, `extensions`, `sans`, `names`):

* subject loop: a non-`commonName` attribute has no effect; a second
  truthy `commonName` has no effect; otherwise `commonName` is assigned
  the lowercased value *before* the DNS-regex test, so the assignment
  stands even when the test fails;
* attribute loop: `extensions` is assigned the first
  `extensionRequest`'s extension list (only if still empty);
* extension loop: `sans` is assigned the first `subjectAltName`'s
  `altNames` (only if still empty);
* SAN loop: a non-dNSName or regex-failing entry contributes nothing;
  others are added to the `names` object. -/
def checkCSR (csr : CSR) : CheckCSRResult :=
  let commonName : Option String :=
    csr.subjectAttributes.foldl (fun cn attr =>
      if attr.name ≠ "commonName" then cn
      else if jsTruthy cn then cn
      else some (jsToLowerCase attr.value)) none
  let extensions : List CsrExtension :=
    csr.attributes.foldl (fun exts attr =>
      if attr.name ≠ "extensionRequest" then exts
      else if exts.length > 0 then exts
      else attr.extensions) []
  let sans : List AltName :=
    extensions.foldl (fun sa extn =>
      if extn.name ≠ "subjectAltName" then sa
      else if sa.length > 0 then sa
      else extn.altNames) []
  let names0 : List String := if jsTruthy commonName then [commonName.getD ""] else []
  let names : List String :=
    sans.foldl (fun ns san =>
      if san.sanType ≠ 2 then ns
      else
        let name := jsToLowerCase san.value
        if ¬ dnsMatch name then ns
        else insertName ns name) names0
  if names.length = 0 then .error "No names in CSR"
  else .names names

/-! ## pki.js: serial numbers -/

/-- One digit of `Number.prototype.toString(16)`. -/
def hexChar (d : Nat) : Char :=
  if d < 10 then Char.ofNat (48 + d) else Char.ofNat (87 + d)

/-- `n.toString(16)`: big-endian hexadecimal digits (`"0"` for zero). -/
def toHexChars (n : Nat) : List Char :=
  if n = 0 then ['0'] else (Nat.digits 16 n).reverse.map hexChar

/-- `getNextSerialNumber` from `src/lib/pki.js`, with the module-level
counter `nextSerialNumber` (initially 1) passed explicitly: returns the
serial string and the updated counter.  An odd-length hex string is
padded with a leading `'0'`. -/
def getNextSerialNumber (counter : Nat) : String × Nat :=
  let ser := toHexChars counter
  let ser := if ser.length % 2 == 1 then '0' :: ser else ser
  (String.mk ser, counter + 1)

/-- The serial returned by the (k+1)-st call within one process run
(the counter starts at 1). -/
def nthSerial (k : Nat) : String := (getNextSerialNumber (k + 1)).1

/-- Numeric value of one hex digit character as produced by `hexChar`. -/
def hexVal (c : Char) : Nat :=
  if c ≤ '9' then c.toNat - 48 else c.toNat - 87

/-- Numeric value of a hexadecimal string (most significant digit first). -/
def hexStringVal (s : String) : Nat :=
  s.data.foldl (fun acc c => 16 * acc + hexVal c) 0

/-- A lowercase hexadecimal digit. -/
def isHexDigitChar (c : Char) : Bool := isDigit09 c || ('a' ≤ c && c ≤ 'f')

/-! ## acme-server.js: the object model

Statuses are the literal strings the source uses.  `expires` instants are
`Int` milliseconds.  UUIDs (`uuid.v4()`) are nondeterministic inputs and
are passed to the constructors explicitly as fresh-id parameters. -/

/-- `problem(type, title, description)`; `description` is `undefined` at
most call sites. -/
structure Problem where
  ptype : String
  title : String
  description : Option String
deriving DecidableEq, Repr

def problem (ptype title : String) (description : Option String := none) : Problem :=
  { ptype := "urn:ietf:params:acme:error:" ++ ptype, title := title,
    description := description }

/-- An account (`Registration`).  `id` is the JWK thumbprint; `key` is
the account JWK, opaque here. -/
structure Registration where
  id : String
  status : String := "good"
  key : String
  contact : Option (List String)
  agreement : Option String := none
deriving DecidableEq, Repr

/-- One entry of `app.requirements`
(`{type: 'authorization', status, url}`). -/
structure Requirement where
  reqType : String
  status : String
  url : String
deriving DecidableEq, Repr

/-- An order (`Application`). -/
structure Application where
  id : String
  status : String
  url : String
  thumbprint : String
  requirements : List Requirement
  notBefore : Option Int := none
  notAfter : Option Int := none
  certificate : Option String := none
deriving DecidableEq, Repr

/-- `Application.markAsReady` from `src/lib/acme-server.js`. -/
def Application.markAsReady (app : Application) : Application :=
  if app.status == "pending" then
    let unfulfilled := app.requirements.filter (fun req => req.status != "valid")
    if unfulfilled.length == 0 then { app with status := "ready" }
    else app
  else app

/-- One entry of `authz.challengeObj`.  The only challenge type the
source constructs is the `auto` challenge. -/
structure Challenge where
  chType : String
  status : String
deriving DecidableEq, Repr

/-- The `auto` challenge's `update` hook (the only challenge constructed
in the source): it sets `status = 'valid'` and ignores its payload
argument. -/
def Challenge.updateHook (c : Challenge) (_payload : Option String) : Challenge :=
  { c with status := "valid" }

/-- A challenge's `toJSON()` output plus the `url` that
`Authorization.update` attaches. -/
structure ChallengeJSON where
  chType : String
  status : String
  url : String
deriving DecidableEq, Repr

/-- An `Authorization`.  `challenges` is the derived JSON array that
`update()` rebuilds from `challengeObj`. -/
structure Authorization where
  id : String
  status : String
  url : String
  thumbprint : String
  identifierValue : String
  scope : Option String := none
  expires : Int
  challengeObj : List Challenge
  challenges : List ChallengeJSON := []
deriving DecidableEq, Repr

/-- `this.challengeObj.map((x, i) => ...)` in `Authorization.update`:
rebuild the JSON challenge list, attaching `url + '/' + i`. -/
def rebuildChallenges (url : String) (i : Nat) : List Challenge → List ChallengeJSON
  | [] => []
  | c :: cs =>
    { chType := c.chType, status := c.status, url := url ++ "/" ++ toString i }
      :: rebuildChallenges url (i + 1) cs

/-- `Authorization.update` from `src/lib/acme-server.js`: rebuild
`challenges`, then derive the status — `invalid` when `expires < now`
(strict), else `valid` when some rebuilt challenge is valid, else
unchanged. -/
def Authorization.update (a : Authorization) (now : Int) : Authorization :=
  let chs := rebuildChallenges a.url 0 a.challengeObj
  let validChallenges := chs.filter (fun x => x.status == "valid")
  if a.expires < now then { a with challenges := chs, status := "invalid" }
  else if validChallenges.length > 0 then { a with challenges := chs, status := "valid" }
  else { a with challenges := chs }

/-- `authz.asRequirement()`. -/
def Authorization.asRequirement (a : Authorization) : Requirement :=
  { reqType := "authorization", status := a.status, url := a.url }

/-- A `Certificate`; `body` records the inputs handed to
`pki.issueCRT` (the signing itself is external crypto). -/
structure CertBody where
  csr : CSR
  notBefore : Int
  notAfter : Int
deriving DecidableEq, Repr

structure Certificate where
  id : String
  url : String
  body : Option CertBody := none
deriving DecidableEq, Repr

/-! ## acme-server.js: the object store (`DB`)

`store[type][id] = obj` on a JS object: an existing key keeps its
position, a new key is appended.  Each typed store is a list with unique
ids. -/

/-- Replace the entry with the same key in place, or append. -/
def putById {α : Type} (key : α → String) : List α → α → List α
  | [], a => [a]
  | x :: xs, a => if key x == key a then a :: xs else x :: putById key xs a

/-- `store[type][id]` lookup. -/
def findById {α : Type} (key : α → String) (l : List α) (id : String) : Option α :=
  l.find? (fun x => key x == id)

structure DB where
  regs : List Registration := []
  apps : List Application := []
  authzs : List Authorization := []
  certs : List Certificate := []
deriving DecidableEq, Repr

def DB.putReg (db : DB) (r : Registration) : DB :=
  { db with regs := putById Registration.id db.regs r }

def DB.putApp (db : DB) (a : Application) : DB :=
  { db with apps := putById Application.id db.apps a }

def DB.putAuthz (db : DB) (a : Authorization) : DB :=
  { db with authzs := putById Authorization.id db.authzs a }

def DB.putCert (db : DB) (c : Certificate) : DB :=
  { db with certs := putById Certificate.id db.certs c }

def DB.getReg (db : DB) (id : String) : Option Registration :=
  findById Registration.id db.regs id

def DB.getApp (db : DB) (id : String) : Option Application :=
  findById Application.id db.apps id

def DB.getAuthz (db : DB) (id : String) : Option Authorization :=
  findById Authorization.id db.authzs id

def DB.getCert (db : DB) (id : String) : Option Certificate :=
  findById Certificate.id db.certs id

/-- `db.authzFor(thumbprint, name)`: linear scan for a matching
authorization. -/
def DB.authzFor (db : DB) (thumbprint name : String) : Option Authorization :=
  db.authzs.find? (fun a => a.thumbprint == thumbprint && a.identifierValue == name)

/-- `db.updateAppsFor(authz)`: first pass rewrites, in every stored app
with the authorization's thumbprint, each requirement whose `url` is the
authorization's URL (and whose type is `authorization`) to the
authorization's current status; second pass calls `markAsReady()` on
exactly those apps. -/
def DB.updateAppsFor (db : DB) (authz : Authorization) : DB :=
  let rewritten := db.apps.map (fun app =>
    if app.thumbprint == authz.thumbprint then
      { app with requirements := app.requirements.map (fun req =>
          if req.reqType == "authorization" && req.url == authz.url then
            { req with status := authz.status }
          else req) }
    else app)
  let marked := rewritten.map (fun app =>
    if app.thumbprint == authz.thumbprint then app.markAsReady else app)
  { db with apps := marked }

/-- The per-app effect of `updateAppsFor` (rewrite the matching
requirements, then `markAsReady`), for apps with the matching
thumbprint; other apps are untouched. -/
def updateAppFor (authz : Authorization) (app : Application) : Application :=
  if app.thumbprint == authz.thumbprint then
    Application.markAsReady
      { app with requirements := app.requirements.map (fun req =>
          if req.reqType == "authorization" && req.url == authz.url then
            { req with status := authz.status }
          else req) }
  else app

/-! ## acme-server.js: server configuration and constructors -/

/-- The policy slice of the server options used by the embedded code
(the `http`/`dns`/`tlssni` challenge branches are TODO stubs in the
source and add nothing). -/
structure Policy where
  authzExpirySeconds : Int
  autoChallenge : Bool
  scopedAuthorizations : Bool
deriving DecidableEq, Repr

/-- `makeURL(obj)`: `${baseURL}/${type}/${id}`. -/
def makeURL (baseURL ty id : String) : String :=
  baseURL ++ "/" ++ ty ++ "/" ++ id

/-- The `Authorization` constructor: fresh UUID `freshId` and the
creation instant `now` are explicit inputs.  Builds the `auto` challenge
when the policy enables it and finishes with `this.update()`. -/
def newAuthorization (policy : Policy) (baseURL : String) (freshId : String)
    (now : Int) (thumbprint name : String) (scope : Option String) : Authorization :=
  let a : Authorization :=
    { id := freshId
      status := "pending"
      url := makeURL baseURL "authz" freshId
      thumbprint := thumbprint
      identifierValue := name
      scope := scope
      expires := now + policy.authzExpirySeconds * 1000
      challengeObj := if policy.autoChallenge then [{ chType := "auto", status := "pending" }] else []
      challenges := [] }
  a.update now

/-! ## acme-server.js: GET /authz/:id/:index (`fetchChallenge`) -/

inductive FetchChallengeResult where
  /-- 404 (authorization missing, index NaN, or index out of range). -/
  | notFound
  /-- 200 with `authz.challenges[index]` (`none` when the rebuilt list is
  shorter than the pre-update one that the guard checked). -/
  | ok (ch : Option ChallengeJSON)
  /-- `authz.challenges[0]` is `undefined` after the rebuild, so the
  assignment to `.status` throws. -/
  | typeError
deriving DecidableEq, Repr

/-- `fetchChallenge` from `src/lib/acme-server.js`.  `index?` is the
result of `parseInt(req.params.index)` (`none` for NaN); the `in` check
tests the index against the *stored* (pre-update) `challenges` array.
After `update()` and `put`, the handler force-sets
`challenges[0].status = 'valid'` and responds with `challenges[index]`. -/
def fetchChallenge (db : DB) (now : Int) (paramsId : String)
    (index? : Option Int) : FetchChallengeResult × DB :=
  match db.getAuthz paramsId, index? with
  | none, _ => (.notFound, db)
  | some _, none => (.notFound, db)
  | some authz, some idx =>
    if ¬ (0 ≤ idx ∧ idx < (authz.challenges.length : Int)) then (.notFound, db)
    else
      let authz1 := authz.update now
      let db1 := db.putAuthz authz1
      match authz1.challenges with
      | [] => (.typeError, db1)
      | c :: cs =>
        let authz2 := { authz1 with challenges := { c with status := "valid" } :: cs }
        let db2 := db1.putAuthz authz2
        (.ok (authz2.challenges.get? idx.toNat), db2)

/-! ## acme-server.js: POST /authz/:id (`getAuthz`) -/

/-- The literal body `getAuthz` sends with status 201. -/
structure GetAuthzBody where
  status : String
  identifierValue : String
  challengeType : String
  token : String
  challengeUrl : String
deriving DecidableEq, Repr

inductive GetAuthzResult where
  /-- 401 with a problem document. -/
  | unauthorized (p : Problem)
  /-- 201 with the canonical challenge-0 body. -/
  | created (body : GetAuthzBody)
  /-- `authz` is `null` and `authz.status` throws: the handler has no
  404 branch. -/
  | typeError (msg : String)
deriving DecidableEq, Repr

/-- The HTTP status a `getAuthz` outcome carries (`none` when the
handler throws instead of responding). -/
def GetAuthzResult.httpStatus : GetAuthzResult → Option Nat
  | .unauthorized _ => some 401
  | .created _ => some 201
  | .typeError _ => none

/-- `getAuthz` from `src/lib/acme-server.js`: 401 when the account key
is unknown; otherwise it dereferences the store lookup without a null
check and sends 201. -/
def getAuthz (db : DB) (thumbprint paramsId : String) : GetAuthzResult :=
  match db.getReg thumbprint with
  | none => .unauthorized (problem "unauthorized" "Unknown account key")
  | some _ =>
    match db.getAuthz paramsId with
    | none => .typeError "Cannot read property status of null"
    | some authz =>
      .created
        { status := authz.status
          identifierValue := authz.identifierValue
          challengeType := "http-01"
          token := "token"
          challengeUrl := authz.url ++ "/0" }

/-! ## acme-server.js: POST /reg/:id (`updateReg`) -/

structure UpdateRegPayload where
  contact : Option (List String) := none
  agreement : Option String := none
deriving DecidableEq, Repr

inductive UpdateRegResult where
  | unauthorized (p : Problem)
  | malformed (p : Problem)
  /-- 200 with the updated registration (the body is `reg.marshal()`,
  a field selection of this record). -/
  | ok (reg : Registration)
deriving DecidableEq, Repr

def UpdateRegResult.httpStatus : UpdateRegResult → Nat
  | .unauthorized _ => 401
  | .malformed _ => 400
  | .ok _ => 200

/-- `updateReg` from `src/lib/acme-server.js`.  `terms` is
`this.terms` (`none` when unconfigured).  The contact assignment happens
on the live store object *before* the agreement check, so it persists
even on the 400 path. -/
def updateReg (db : DB) (terms : Option String) (thumbprint paramsId : String)
    (payload : UpdateRegPayload) : UpdateRegResult × DB :=
  match db.getReg thumbprint with
  | none => (.unauthorized (problem "unauthorized" "Unknown account key"), db)
  | some reg =>
    if paramsId ≠ thumbprint then
      (.unauthorized (problem "unauthorized" "Unauthorized account key"), db)
    else
      let reg1 := if jsTruthyList payload.contact then { reg with contact := payload.contact } else reg
      let db1 := db.putReg reg1
      if jsTruthy payload.agreement then
        if payload.agreement ≠ terms then
          (.malformed (problem "malformed" "Incorrect agreement URL"), db1)
        else
          let reg2 := { reg1 with agreement := payload.agreement }
          (.ok reg2, db1.putReg reg2)
      else
        (.ok reg1, db1.putReg reg1)

/-! ## acme-server.js: POST /app/:id/finalize (`finalizeOrder`) -/

/-- The request payload; `csr` is the parsed certification request
(`none` when the field is absent; parse failure of a present CSR is also
a malformed-CSR 400 and is not separately modelled). -/
structure FinalizePayload where
  csr : Option CSR := none
deriving DecidableEq, Repr

inductive FinalizeResult where
  | unauthorized (p : Problem)
  | notFound
  | malformed (p : Problem)
  /-- 201 with `Location: order.url` and the marshalled order. -/
  | issued (location : String) (order : Application)
deriving DecidableEq, Repr

def FinalizeResult.httpStatus : FinalizeResult → Nat
  | .unauthorized _ => 401
  | .notFound => 404
  | .malformed _ => 400
  | .issued _ _ => 201

/-- The authorization-creation loop of `finalizeOrder`: for each CSR
name, reuse `authzFor(thumbprint, name)` or construct a fresh
authorization (consuming one fresh id), and `put` it. -/
def finalizeAuthzLoop (policy : Policy) (baseURL : String) (now : Int)
    (thumbprint : String) (scope : Option String) :
    DB → List String → List String → DB
  | db, _, [] => db
  | db, freshIds, name :: rest =>
    match db.authzFor thumbprint name with
    | some authz =>
      finalizeAuthzLoop policy baseURL now thumbprint scope (db.putAuthz authz) freshIds rest
    | none =>
      let fid := freshIds.headD ("fresh-" ++ name)
      let authz := newAuthorization policy baseURL fid now thumbprint name scope
      finalizeAuthzLoop policy baseURL now thumbprint scope (db.putAuthz authz) freshIds.tail rest

/-- `finalizeOrder` from `src/lib/acme-server.js`.

Explicit nondeterministic inputs: `now` and `oneYearFromNow` (the two
wall-clock reads), `certFreshId` (the certificate's UUID) and
`authzFreshIds` (UUIDs for authorizations the loop may create).

The handler checks that the *requesting* account is registered and that
the order exists — it never compares `order.thumbprint` with the
requester's thumbprint and never looks at `order.status` or the
requirement statuses.  All mutations of the live `order` object are
modelled as immediate `put`s. -/
def finalizeOrder (policy : Policy) (baseURL : String) (now oneYearFromNow : Int)
    (certFreshId : String) (authzFreshIds : List String) (db : DB)
    (thumbprint orderId : String) (payload : FinalizePayload) :
    FinalizeResult × DB :=
  match db.getReg thumbprint with
  | none => (.unauthorized (problem "unauthorized" "Unknown account key"), db)
  | some _ =>
    match db.getApp orderId with
    | none => (.notFound, db)
    | some order =>
      let order := { order with status := "processing" }
      let db := db.putApp order
      let cert : Certificate :=
        { id := certFreshId, url := makeURL baseURL "cert" certFreshId }
      let scope := if policy.scopedAuthorizations then some cert.url else none
      match payload.csr with
      | none =>
        let order := { order with status := "ready" }
        (.malformed (problem "malformed" "Invalid new certificate request"
            (some "CSR must be provided")), db.putApp order)
      | some csr =>
        match checkCSR csr with
        | .error e =>
          let order := { order with status := "ready" }
          (.malformed (problem "malformed" "Invalid new certificate request" (some e)),
            db.putApp order)
        | .names names =>
          let notBefore := order.notBefore.getD now
          let notAfter := order.notAfter.getD oneYearFromNow
          let db := finalizeAuthzLoop policy baseURL now thumbprint scope db authzFreshIds names
          let body : CertBody := { csr := csr, notBefore := notBefore, notAfter := notAfter }
          let cert := { cert with body := some body }
          let order := { order with status := "valid", certificate := some cert.url }
          let db := db.putApp order
          let db := db.putCert cert
          (.issued order.url order, db)

/-! ## acme-server.js: POST /authz/:id/:index (`updateAuthz`)

The handler's steps are recorded as an event trace so that their order —
and the argument passed to the challenge's update hook — is part of the
model.  `respond` is always the trace's last event; the returned store
is the one committed when `respond` is emitted. -/

structure AuthzRequest where
  paramsId : String
  /-- `parseInt(req.params.index)`; `none` for NaN. -/
  paramsIndex : Option Int
  thumbprint : String
  /-- `req.payload`, the parsed JSON body the transport attaches
  (opaque). -/
  payload : Option String
deriving DecidableEq, Repr

inductive UAEvent where
  /-- `authz.challengeObj[index].update(arg)` was invoked with `arg`. -/
  | challengeUpdate (index : Nat) (arg : Option String)
  /-- `authz.update()` ran. -/
  | authzUpdate
  /-- `db.updateAppsFor(authz)` ran. -/
  | updateApps
  /-- The response was sent. -/
  | respond (status : Nat) (body : Option ChallengeJSON)
  /-- `challengeObj[index]` is `undefined` and `.update` throws. -/
  | typeError
deriving DecidableEq, Repr

/-- `updateAuthz` from `src/lib/acme-server.js`.  Checks: authorization
and index exist (404), account registered (401), `reg.id` equals the
authorization's thumbprint (401).  On success the promise chain runs
`challengeObj[index].update(res.payload)`, then `authz.update()`, then
`updateAppsFor`, then responds 200 with `authz.challenges[index]`.

`res` is the Express *response* object; it carries no `payload` field,
so the hook receives `undefined` — the request's parsed payload
(`req.payload`) is never passed. -/
def updateAuthz (db : DB) (now : Int) (req : AuthzRequest) : List UAEvent × DB :=
  match db.getAuthz req.paramsId, req.paramsIndex with
  | none, _ => ([.respond 404 none], db)
  | some _, none => ([.respond 404 none], db)
  | some authz, some idx =>
    if ¬ (0 ≤ idx ∧ idx < (authz.challenges.length : Int)) then ([.respond 404 none], db)
    else
      match db.getReg req.thumbprint with
      | none => ([.respond 401 none], db)
      | some reg =>
        if reg.id ≠ authz.thumbprint then ([.respond 401 none], db)
        else
          let i := idx.toNat
          let resPayload : Option String := none
          match authz.challengeObj.get? i with
          | none => ([.typeError], db)
          | some ch =>
            let ch' := ch.updateHook resPayload
            let authz1 := { authz with challengeObj := authz.challengeObj.set i ch' }
            let db1 := db.putAuthz authz1
            let authz2 := authz1.update now
            let db2 := db1.putAuthz authz2
            let db3 := db2.updateAppsFor authz2
            ([.challengeUpdate i resPayload, .authzUpdate, .updateApps,
              .respond 200 (authz2.challenges.get? i)], db3)

/-! ## The JWS front end (`ACMEJose.verify`, `kid`-aware variant)

The transport hands `verify` the flattened JWS and a key-lookup
callback.  Base64url/JSON decoding of the protected header and the
actual signature check are external collaborators; the embedding takes
the decoded header as input and stops at key resolution, returning the
key that the (external) signature verification would then use.  The
server's callback (`acme-server.js`) throws on an unknown `kid`
(`this.db.get(...).key` on `null`), modelled as a `none` lookup
result. -/

/-- An account key; `keyLength` models `key.length` for the legacy
minimum-size check. -/
structure JWK where
  keyId : String
  keyLength : Nat
deriving DecidableEq, Repr

/-- The decoded protected header.  `none` stands for an absent (or, for
the string fields tested with `!x`, empty — both falsy) field. -/
structure JoseHeader where
  alg : Option String := none
  jwk : Option JWK := none
  kid : Option String := none
  nonce : Option String := none
  url : Option String := none
deriving DecidableEq, Repr

/-- The flattened-JWS shape test (`payloadPresent` is `"payload" in jws`). -/
structure JoseJWS where
  protectedPresent : Bool
  payloadPresent : Bool
  signaturePresent : Bool
deriving DecidableEq, Repr

/-- `ACMEJose.verify` up to key resolution: `Except.error` is a rejected
promise, `Except.ok k` means header validation passed and `k` is the key
handed to the signature check. -/
def joseVerify (acmeVersion : String) (jws : JoseJWS) (header : JoseHeader)
    (getKey : String → Option JWK) : Except String JWK :=
  if ¬ (jws.protectedPresent && jws.payloadPresent && jws.signaturePresent) then
    .error "Non-flattened JWS"
  else if ¬ (jsTruthy header.alg && (jsTruthy header.kid || header.jwk.isSome)
      && jsTruthy header.nonce) then
    .error "Missing field in protected header"
  else if acmeVersion ≠ "le" && ¬ jsTruthy header.url then
    .error "Header must provide url"
  else
    let resolved : Except String JWK :=
      if jsTruthy header.kid then
        match getKey (header.kid.getD "") with
        | none => .error "Cannot read property key of null"
        | some k => .ok k
      else
        match header.jwk with
        | some k => .ok k
        | none => .error "Missing field in protected header"
    match resolved with
    | .error e => .error e
    | .ok key =>
      if acmeVersion = "le" && key.keyLength < 2048 then .error "key too small"
      else .ok key

/-! ## Store and fold lemmas -/

theorem findById_putById {α : Type} (key : α → String) (l : List α) (a : α) :
    findById key (putById key l a) (key a) = some a := by
  induction l with
  | nil => simp [findById, putById, List.find?]
  | cons x xs ih =>
    simp only [putById]
    by_cases h : (key x == key a) = true
    · simp [findById, List.find?_cons_of_pos, h]
    · rw [if_neg (by simp [h])]
      unfold findById at ih ⊢
      rw [List.find?_cons_of_neg _ (by simp [h]), ih]

theorem eq_of_findById {α : Type} (key : α → String) (l : List α) (id : String)
    (a : α) (h : findById key l id = some a) : key a = id := by
  have := List.find?_some h
  simpa using this

theorem DB.getApp_putApp (db : DB) (a : Application) :
    (db.putApp a).getApp a.id = some a :=
  findById_putById Application.id db.apps a

theorem DB.getReg_putReg (db : DB) (r : Registration) :
    (db.putReg r).getReg r.id = some r :=
  findById_putById Registration.id db.regs r

theorem DB.getCert_putCert (db : DB) (c : Certificate) :
    (db.putCert c).getCert c.id = some c :=
  findById_putById Certificate.id db.certs c

theorem DB.getApp_putCert (db : DB) (c : Certificate) (id : String) :
    (db.putCert c).getApp id = db.getApp id := rfl

/-- The authorization-creation loop of `finalizeOrder` touches only the
authorization store. -/
theorem finalizeAuthzLoop_apps (policy : Policy) (baseURL : String) (now : Int)
    (thumbprint : String) (scope : Option String) :
    ∀ (names : List String) (db : DB) (freshIds : List String),
      (finalizeAuthzLoop policy baseURL now thumbprint scope db freshIds names).apps
        = db.apps := by
  intro names
  induction names with
  | nil => intro db ids; rfl
  | cons n rest ih =>
    intro db ids
    unfold finalizeAuthzLoop
    cases db.authzFor thumbprint n with
    | some a => rw [ih]; rfl
    | none => rw [ih]; rfl

/-- `updateAppsFor`'s two passes compose into one map of `updateAppFor`. -/
theorem updateAppsFor_apps (db : DB) (authz : Authorization) :
    (db.updateAppsFor authz).apps = db.apps.map (updateAppFor authz) := by
  show ((db.apps.map _).map _) = _
  rw [List.map_map]
  congr 1
  funext app
  simp only [Function.comp_apply, updateAppFor]
  by_cases h : (app.thumbprint == authz.thumbprint) = true
  · simp [h]
  · simp [h]

/-- `markAsReady` on a pending app: ready afterwards iff every
requirement is valid. -/
theorem markAsReady_pending_iff (app : Application) (hp : app.status = "pending") :
    app.markAsReady.status = "ready" ↔ ∀ r ∈ app.requirements, r.status = "valid" := by
  unfold Application.markAsReady
  by_cases hf : ∀ r ∈ app.requirements, r.status = "valid"
  · have hnil : app.requirements.filter (fun req => req.status != "valid") = [] := by
      rw [List.filter_eq_nil_iff]
      intro r hr
      simp [hf r hr]
    simp only [hp, hnil]
    simpa using hf
  · have hne : app.requirements.filter (fun req => req.status != "valid") ≠ [] := by
      intro hnil
      apply hf
      intro r hr
      by_contra hrs
      have : r ∈ app.requirements.filter (fun req => req.status != "valid") := by
        rw [List.mem_filter]
        exact ⟨hr, by simp [hrs]⟩
      simp [hnil] at this
    have hlen : (app.requirements.filter (fun req => req.status != "valid")).length ≠ 0 := by
      simpa [List.length_eq_zero] using hne
    simp [hp, hlen, hf]

/-- `markAsReady` leaves a non-pending app untouched. -/
theorem markAsReady_not_pending (app : Application) (hp : app.status ≠ "pending") :
    app.markAsReady = app := by
  unfold Application.markAsReady
  simp [hp]

/-- The rebuilt challenge list has a valid entry iff `challengeObj`
has one. -/
theorem rebuildChallenges_filter_valid (url : String) (l : List Challenge) :
    ∀ i, (0 < ((rebuildChallenges url i l).filter (fun x => x.status == "valid")).length)
      ↔ l.any (fun c => c.status == "valid") = true := by
  induction l with
  | nil => intro i; simp [rebuildChallenges]
  | cons c cs ih =>
    intro i
    by_cases h : (c.status == "valid") = true
    · simp [rebuildChallenges, List.filter_cons, h, List.any_cons]
    · simp [rebuildChallenges, List.filter_cons, h, List.any_cons, ih (i + 1)]

/-! ## Serial-number lemmas -/

theorem hexVal_hexChar : ∀ d, d < 16 → hexVal (hexChar d) = d := by decide

theorem isHexDigitChar_hexChar : ∀ d, d < 16 → isHexDigitChar (hexChar d) = true := by decide

theorem foldl_hexChars (ds : List Nat) (h : ∀ d ∈ ds, d < 16) (acc : Nat) :
    List.foldl (fun a c => 16 * a + hexVal c) acc ((ds.reverse).map hexChar)
      = acc * 16 ^ ds.length + Nat.ofDigits 16 ds := by
  induction ds generalizing acc with
  | nil => simp [Nat.ofDigits]
  | cons d ds ih =>
    simp only [List.reverse_cons, List.map_append, List.foldl_append]
    rw [ih (fun x hx => h x (List.mem_cons_of_mem _ hx))]
    simp only [List.map_cons, List.map_nil, List.foldl_cons, List.foldl_nil,
      Nat.ofDigits_cons, hexVal_hexChar d (h d (List.mem_cons_self _ _)),
      List.length_cons]
    ring

theorem hexStringVal_mk_toHexChars (n : Nat) : hexStringVal (String.mk (toHexChars n)) = n := by
  by_cases h : n = 0
  · subst h; decide
  · show List.foldl _ 0 (toHexChars n) = n
    unfold toHexChars
    rw [if_neg h]
    rw [foldl_hexChars _ (fun d hd => Nat.digits_lt_base (by norm_num) hd) 0]
    simp [Nat.ofDigits_digits]

/-- The value of the serial returned by the (k+1)-st generator call. -/
theorem hexStringVal_nthSerial (k : Nat) : hexStringVal (nthSerial k) = k + 1 := by
  unfold nthSerial getNextSerialNumber
  by_cases h : (toHexChars (k + 1)).length % 2 = 1
  · have hb : ((toHexChars (k + 1)).length % 2 == 1) = true := by simpa using h
    simp only [hb, if_pos]
    show List.foldl _ 0 ('0' :: toHexChars (k + 1)) = k + 1
    rw [List.foldl_cons]
    have h0 : 16 * 0 + hexVal '0' = 0 := by decide
    rw [h0]
    exact hexStringVal_mk_toHexChars (k + 1)
  · have hb : ((toHexChars (k + 1)).length % 2 == 1) = false := by simpa using h
    simp only [hb, Bool.false_eq_true, if_neg]
    exact hexStringVal_mk_toHexChars (k + 1)

theorem nthSerial_length_even (k : Nat) : (nthSerial k).length % 2 = 0 := by
  unfold nthSerial getNextSerialNumber
  by_cases h : (toHexChars (k + 1)).length % 2 = 1
  · have hb : ((toHexChars (k + 1)).length % 2 == 1) = true := by simpa using h
    simp only [hb, if_pos]
    show ('0' :: toHexChars (k + 1)).length % 2 = 0
    simp only [List.length_cons]
    omega
  · have hb : ((toHexChars (k + 1)).length % 2 == 1) = false := by simpa using h
    simp only [hb, Bool.false_eq_true, if_neg]
    show (toHexChars (k + 1)).length % 2 = 0
    omega

theorem nthSerial_all_hex (k : Nat) : (nthSerial k).data.all isHexDigitChar = true := by
  have hmk : ∀ n : Nat, n ≠ 0 → (toHexChars n).all isHexDigitChar = true := by
    intro n hn
    unfold toHexChars
    rw [if_neg hn, List.all_eq_true]
    intro c hc
    simp only [List.mem_map, List.mem_reverse] at hc
    obtain ⟨d, hd, rfl⟩ := hc
    exact isHexDigitChar_hexChar d (Nat.digits_lt_base (by norm_num) hd)
  unfold nthSerial getNextSerialNumber
  by_cases h : (toHexChars (k + 1)).length % 2 = 1
  · have hb : ((toHexChars (k + 1)).length % 2 == 1) = true := by simpa using h
    simp only [hb, if_pos]
    show ('0' :: toHexChars (k + 1)).all isHexDigitChar = true
    rw [List.all_cons]
    have h0 : isHexDigitChar '0' = true := by decide
    simp [h0, hmk (k + 1) (by omega)]
  · have hb : ((toHexChars (k + 1)).length % 2 == 1) = false := by simpa using h
    simp only [hb, Bool.false_eq_true, if_neg]
    exact hmk (k + 1) (by omega)

theorem markAsReady_status_not_pending (app : Application) (hp : app.status ≠ "pending") :
    app.markAsReady.status = app.status := by
  rw [markAsReady_not_pending app hp]

/-! ## Claim C1 -/

/-- A CSR violating subject rule 1: its subject attribute is an
`organizationName`, not a `commonName`; it also carries a well-formed
dNSName SAN. -/
def csrC1 : CSR :=
  { subjectAttributes := [⟨"organizationName", "Acme Co"⟩],
    attributes := [⟨"extensionRequest", [⟨"subjectAltName", [⟨2, "example.com"⟩]⟩]⟩] }

/-- Claim C1: the claim says `checkCSR` returns
`{error: 'Subject must have only commonName'}` for a CSR whose subject
carries a non-`commonName` attribute.  It does not: the
`return {error: ...}` statements sit inside `Array.prototype.map`
callbacks, so the rule failures are discarded and `checkCSR` returns the
`{names: [...]}` success result built from the SAN. -/
theorem C1_checkCSR_rule_errors_are_discarded :
    checkCSR csrC1 = .names ["example.com"] ∧
    checkCSR csrC1 ≠ .error "Subject must have only commonName" := by
  constructor
  · rfl
  · decide

/-! ## Claim C2 -/

/-- Claim C2: `finalizeOrder` performs no ownership or readiness check.
For every store in which the requesting account is registered and the
order exists — with *no* hypothesis on `order.thumbprint` or
`order.status` — a payload whose CSR passes `checkCSR` yields a 201
response, stores the order with status `valid` and the new certificate
URL, and stores the issued certificate. -/
theorem C2_finalize_ignores_ownership_and_readiness
    (policy : Policy) (baseURL : String) (now oneYearFromNow : Int)
    (certFreshId : String) (authzFreshIds : List String) (db : DB)
    (thumbprint orderId : String) (payload : FinalizePayload)
    (reg : Registration) (order : Application) (csr : CSR) (ns : List String)
    (hreg : db.getReg thumbprint = some reg)
    (hord : db.getApp orderId = some order)
    (hcsr : payload.csr = some csr)
    (hchk : checkCSR csr = .names ns) :
    ((finalizeOrder policy baseURL now oneYearFromNow certFreshId authzFreshIds db
        thumbprint orderId payload).1.httpStatus = 201) ∧
    (∃ order2 : Application,
      (finalizeOrder policy baseURL now oneYearFromNow certFreshId authzFreshIds db
        thumbprint orderId payload).1 = .issued order.url order2 ∧
      (finalizeOrder policy baseURL now oneYearFromNow certFreshId authzFreshIds db
        thumbprint orderId payload).2.getApp orderId = some order2 ∧
      order2.status = "valid" ∧
      order2.certificate = some (makeURL baseURL "cert" certFreshId) ∧
      order2.thumbprint = order.thumbprint) ∧
    ((finalizeOrder policy baseURL now oneYearFromNow certFreshId authzFreshIds db
        thumbprint orderId payload).2.getCert certFreshId
      = some ⟨certFreshId, makeURL baseURL "cert" certFreshId,
          some ⟨csr, order.notBefore.getD now, order.notAfter.getD oneYearFromNow⟩⟩) := by
  have hid : order.id = orderId := eq_of_findById _ _ _ _ hord
  simp only [finalizeOrder, hreg, hord, hcsr, hchk]
  refine ⟨rfl, ⟨_, rfl, ?_, rfl, rfl, rfl⟩, ?_⟩
  · rw [DB.getApp_putCert, ← hid]
    exact DB.getApp_putApp _ _
  · exact DB.getCert_putCert _ _

def polC2 : Policy :=
  { authzExpirySeconds := 100, autoChallenge := true, scopedAuthorizations := false }

def regC2 : Registration := { id := "tp-c2", key := "jwk-c2", contact := none }

/-- An order owned by a different account and still pending. -/
def orderC2 : Application :=
  { id := "order-c2", status := "pending", url := "http://localhost/app/order-c2",
    thumbprint := "someone-else",
    requirements := [⟨"authorization", "pending", "http://localhost/authz/x"⟩] }

def dbC2 : DB := { regs := [regC2], apps := [orderC2] }

def csrC2 : CSR :=
  { subjectAttributes := [⟨"commonName", "example.com"⟩], attributes := [] }

/-- Claim C2 witness: account `tp-c2` finalizes an order owned by
`someone-else` that is still pending, and issuance succeeds. -/
theorem C2_witness :
    ((finalizeOrder polC2 "http://localhost" 0 1000 "cert-c2" ["fresh-c2"] dbC2
        "tp-c2" "order-c2" { csr := some csrC2 }).1.httpStatus = 201) ∧
    (∃ order2 : Application,
      (finalizeOrder polC2 "http://localhost" 0 1000 "cert-c2" ["fresh-c2"] dbC2
        "tp-c2" "order-c2" { csr := some csrC2 }).1 = .issued orderC2.url order2 ∧
      (finalizeOrder polC2 "http://localhost" 0 1000 "cert-c2" ["fresh-c2"] dbC2
        "tp-c2" "order-c2" { csr := some csrC2 }).2.getApp "order-c2" = some order2 ∧
      order2.status = "valid" ∧
      order2.certificate = some (makeURL "http://localhost" "cert" "cert-c2") ∧
      order2.thumbprint = orderC2.thumbprint) ∧
    ((finalizeOrder polC2 "http://localhost" 0 1000 "cert-c2" ["fresh-c2"] dbC2
        "tp-c2" "order-c2" { csr := some csrC2 }).2.getCert "cert-c2"
      = some ⟨"cert-c2", makeURL "http://localhost" "cert" "cert-c2",
          some ⟨csrC2, orderC2.notBefore.getD 0, orderC2.notAfter.getD 1000⟩⟩) :=
  C2_finalize_ignores_ownership_and_readiness polC2 "http://localhost" 0 1000
    "cert-c2" ["fresh-c2"] dbC2 "tp-c2" "order-c2" { csr := some csrC2 }
    regC2 orderC2 csrC2 ["example.com"] rfl rfl rfl rfl

/-! ## Claim C3 -/

/-- An authorization with one still-pending `auto` challenge, not
expired at the request instant. -/
def authzC3 : Authorization :=
  { id := "authz-c3", status := "pending", url := "http://localhost/authz/authz-c3",
    thumbprint := "tp-c3", identifierValue := "example.com", expires := 1000,
    challengeObj := [⟨"auto", "pending"⟩],
    challenges := [⟨"auto", "pending", "http://localhost/authz/authz-c3/0"⟩] }

def dbC3 : DB := { authzs := [authzC3] }

/-- Claim C3: the claim says `GET /authz/{id}/{k}` returns the challenge
at index `k` with its actual, unmodified status.  The handler instead
force-sets `challenges[0].status = 'valid'` after `update()`, so for
`k = 0` it responds with status `valid` while the recomputed, unmodified
challenge is still `pending`. -/
theorem C3_fetchChallenge_forces_challenge_zero_valid :
    (fetchChallenge dbC3 0 "authz-c3" (some 0)).1
      = .ok (some ⟨"auto", "valid", "http://localhost/authz/authz-c3/0"⟩) ∧
    (authzC3.update 0).challenges.get? 0
      = some ⟨"auto", "pending", "http://localhost/authz/authz-c3/0"⟩ ∧
    ("valid" : String) ≠ "pending" := by
  refine ⟨rfl, rfl, by decide⟩

/-! ## Claim C4 -/

def regC4 : Registration :=
  { id := "tp-c4", key := "jwk-c4", contact := some ["mailto:old@example.com"] }

def dbC4 : DB := { regs := [regC4] }

/-- A payload carrying both a new contact and an agreement URL that does
not match the server's terms. -/
def payloadC4 : UpdateRegPayload :=
  { contact := some ["mailto:new@example.com"], agreement := some "https://wrong" }

def runC4 : UpdateRegResult × DB :=
  updateReg dbC4 (some "https://example.com/terms") "tp-c4" "tp-c4" payloadC4

/-- Claim C4 counterexample: the request fails with 400 and the stored
agreement is unchanged, but the stored contact *did* change — the claim's
"leaves the stored registration entirely unchanged … its contact field
keeps its prior value" is false. -/
theorem C4_contact_mutated_on_malformed_agreement :
    runC4.1.httpStatus = 400 ∧
    (runC4.2.getReg "tp-c4").map Registration.contact
      = some (some ["mailto:new@example.com"]) ∧
    (dbC4.getReg "tp-c4").map Registration.contact
      = some (some ["mailto:old@example.com"]) := by
  refine ⟨rfl, rfl, rfl⟩

/-- Claim C4 amended: an update-reg request whose agreement differs from
the configured terms responds 400 `malformed` and leaves the stored
agreement unchanged; but a contact field present in the failing payload
is applied to the live stored registration before the agreement check,
so the stored contact becomes the payload's contact. -/
theorem C4_amended_agreement_unchanged_contact_applied (db : DB) (terms : Option String)
    (tp : String) (payload : UpdateRegPayload) (reg : Registration) (a : String)
    (hreg : db.getReg tp = some reg) (ha : payload.agreement = some a)
    (hne : a ≠ "") (hterms : some a ≠ terms) :
    (updateReg db terms tp tp payload).1
      = .malformed (problem "malformed" "Incorrect agreement URL") ∧
    (updateReg db terms tp tp payload).2.getReg tp
      = some { reg with contact :=
          if jsTruthyList payload.contact then payload.contact else reg.contact } := by
  have hid : reg.id = tp := eq_of_findById _ _ _ _ hreg
  have htr : jsTruthy payload.agreement = true := by simp [ha, jsTruthy, hne]
  have hagne : payload.agreement ≠ terms := by rw [ha]; exact hterms
  simp only [updateReg, hreg, htr, hagne, ne_eq, not_true_eq_false, not_false_eq_true,
    if_true, if_false, ite_true, ite_false, eq_self_iff_true]
  refine ⟨trivial, ?_⟩
  have hput : (db.putReg (if jsTruthyList payload.contact then { reg with contact := payload.contact } else reg)).getReg tp = some (if jsTruthyList payload.contact then { reg with contact := payload.contact } else reg) := by
    have hid2 : (if jsTruthyList payload.contact then { reg with contact := payload.contact } else reg).id = tp := by
      by_cases hc : jsTruthyList payload.contact = true
      · simp [hc, hid]
      · simp [hc, hid]
    rw [← hid2]
    exact DB.getReg_putReg db _
  rw [hput]
  by_cases hc : jsTruthyList payload.contact = true
  · simp [hc]
  · simp [hc]

/-- Claim C4 witness: the amended statement at the concrete fixture. -/
theorem C4_witness :
    runC4.1 = .malformed (problem "malformed" "Incorrect agreement URL") ∧
    runC4.2.getReg "tp-c4" = some { regC4 with contact :=
      (if jsTruthyList payloadC4.contact then payloadC4.contact else regC4.contact) } :=
  C4_amended_agreement_unchanged_contact_applied dbC4 (some "https://example.com/terms")
    "tp-c4" payloadC4 regC4 "https://wrong" rfl rfl (by decide) (by decide)

/-! ## Claim C5 -/

/-- An order that is already `ready`, all requirements valid. -/
def appC5 : Application :=
  { id := "order-c5", status := "ready", url := "http://localhost/app/order-c5",
    thumbprint := "tp-c5",
    requirements := [⟨"authorization", "valid", "http://localhost/authz/authz-c5"⟩] }

/-- The authorization behind that requirement, now `invalid`. -/
def authzC5 : Authorization :=
  { id := "authz-c5", status := "invalid", url := "http://localhost/authz/authz-c5",
    thumbprint := "tp-c5", identifierValue := "example.com", expires := 0,
    challengeObj := [], challenges := [] }

def dbC5 : DB := { apps := [appC5] }

/-- Claim C5 counterexample: after `updateAppsFor` the order's status is
still `ready` while its (rewritten) requirement is `invalid`, so "an
order's status is `ready` exactly when it was pending and all its
requirements are valid" fails — the order was never pending at this
mutation and a requirement is not valid, yet the status is `ready`. -/
theorem C5_ready_app_survives_invalid_requirement :
    ((dbC5.updateAppsFor authzC5).getApp "order-c5").map Application.status = some "ready" ∧
    ((dbC5.updateAppsFor authzC5).getApp "order-c5").map Application.requirements
      = some [⟨"authorization", "invalid", "http://localhost/authz/authz-c5"⟩] := by
  exact ⟨rfl, rfl⟩

/-- Claim C5 amended: `markAsReady` sets the status to `ready` iff it is
`pending` and every requirement is valid, and otherwise leaves the app
untouched; `updateAppsFor` maps `updateAppFor` over the stored apps,
which leaves other accounts' apps unchanged, turns a *pending* matching
app `ready` iff all its rewritten requirements are valid, and preserves
the status of any non-pending app — so `ready` can persist alongside
invalid requirements. -/
theorem C5_amended_ready_only_from_pending :
    (∀ app : Application, app.status = "pending" →
      (app.markAsReady.status = "ready" ↔ ∀ r ∈ app.requirements, r.status = "valid")) ∧
    (∀ app : Application, app.status ≠ "pending" → app.markAsReady = app) ∧
    (∀ (db : DB) (authz : Authorization),
      (db.updateAppsFor authz).apps = db.apps.map (updateAppFor authz)) ∧
    (∀ (authz : Authorization) (app : Application),
      app.thumbprint ≠ authz.thumbprint → updateAppFor authz app = app) ∧
    (∀ (authz : Authorization) (app : Application),
      app.thumbprint = authz.thumbprint → app.status = "pending" →
      ((updateAppFor authz app).status = "ready" ↔
        ∀ r ∈ app.requirements.map (fun req =>
            if req.reqType == "authorization" && req.url == authz.url then
              { req with status := authz.status } else req),
          r.status = "valid")) ∧
    (∀ (authz : Authorization) (app : Application),
      app.status ≠ "pending" → (updateAppFor authz app).status = app.status) := by
  refine ⟨markAsReady_pending_iff, markAsReady_not_pending, updateAppsFor_apps, ?_, ?_, ?_⟩
  · intro authz app h
    unfold updateAppFor
    simp [h]
  · intro authz app ht hp
    unfold updateAppFor
    rw [if_pos (by simp [ht])]
    exact markAsReady_pending_iff _ hp
  · intro authz app hp
    unfold updateAppFor
    by_cases ht : (app.thumbprint == authz.thumbprint) = true
    · rw [if_pos ht]
      exact markAsReady_status_not_pending _ hp
    · rw [if_neg ht]

/-- A pending order with all requirements valid. -/
def appC5w : Application :=
  { id := "order-c5w", status := "pending", url := "http://localhost/app/order-c5w",
    thumbprint := "tp-c5w",
    requirements := [⟨"authorization", "valid", "http://localhost/authz/a"⟩] }

/-- Claim C5 witness: a pending app with all-valid requirements becomes
ready. -/
theorem C5_witness : appC5w.markAsReady.status = "ready" :=
  (C5_amended_ready_only_from_pending.1 appC5w rfl).mpr (by decide)

/-! ## Claim C6 -/

/-- An authorization whose expiry instant is exactly the current time
and which has a valid challenge. -/
def authzC6 : Authorization :=
  { id := "authz-c6", status := "pending", url := "http://localhost/authz/authz-c6",
    thumbprint := "tp-c6", identifierValue := "example.com", expires := 1000,
    challengeObj := [⟨"auto", "valid"⟩], challenges := [] }

/-- Claim C6 counterexample: at the exact boundary `now = expires` the
claim says the status is already `invalid`; the code's test is the
strict `expires < now`, so the status becomes `valid` instead. -/
theorem C6_boundary_not_invalid :
    (1000 : Int) ≥ authzC6.expires ∧
    (authzC6.update 1000).status = "valid" ∧
    (authzC6.update 1000).status ≠ "invalid" := by
  refine ⟨by decide, rfl, by decide⟩

/-- Claim C6 amended: `update` derives the status as `invalid` iff `now`
is *strictly* greater than `expires` (at `now = expires` the expiry rule
does not fire); otherwise `valid` when some challenge is valid, else
unchanged. -/
theorem C6_update_status_strict_expiry (a : Authorization) (now : Int) :
    (a.expires < now → (a.update now).status = "invalid") ∧
    (¬ a.expires < now →
      (a.update now).status =
        (if a.challengeObj.any (fun c => c.status == "valid") then "valid" else a.status)) := by
  constructor
  · intro h
    simp only [Authorization.update]
    rw [if_pos h]
  · intro h
    simp only [Authorization.update]
    rw [if_neg h]
    by_cases hv : a.challengeObj.any (fun c => c.status == "valid") = true
    · have hpos := (rebuildChallenges_filter_valid a.url a.challengeObj 0).mpr hv
      rw [if_pos hpos, if_pos hv]
    · have hnpos : ¬ 0 < ((rebuildChallenges a.url 0 a.challengeObj).filter
          (fun x => x.status == "valid")).length := fun hp =>
        hv ((rebuildChallenges_filter_valid a.url a.challengeObj 0).mp hp)
      rw [if_neg hnpos, if_neg hv]

/-- Claim C6 witness: strictly past expiry the status is `invalid`. -/
theorem C6_witness :
    (Authorization.update authzC6 2000).status = "invalid" :=
  (C6_update_status_strict_expiry authzC6 2000).1 (by decide)

/-! ## Claim C7 -/

def jwsOK : JoseJWS := ⟨true, true, true⟩

/-- A protected header carrying *both* `jwk` and `kid`. -/
def hdrC7 : JoseHeader :=
  { alg := some "ES256", jwk := some ⟨"inline-jwk", 2048⟩,
    kid := some "http://acme-v02.api.letsencrypt.org/acme/reg/tp1",
    nonce := some "nonce1", url := some "http://localhost/new-app" }

def lookupC7 : String → Option JWK := fun s =>
  if s = "http://acme-v02.api.letsencrypt.org/acme/reg/tp1" then some ⟨"resolved-jwk", 2048⟩
  else none

/-- Claim C7 counterexample: the claim says a header carrying both `jwk`
and `kid` is rejected.  `verify` accepts it: the presence test is
`kid || jwk`, and `kid` then takes precedence in key resolution. -/
theorem C7_both_jwk_and_kid_accepted :
    hdrC7.jwk.isSome = true ∧ jsTruthy hdrC7.kid = true ∧
    joseVerify "ietf-draft" jwsOK hdrC7 lookupC7 = .ok ⟨"resolved-jwk", 2048⟩ := by
  refine ⟨rfl, by decide, rfl⟩

/-- Claim C7 amended: `verify` requires *at least one* of `jwk` and
`kid` (a header with neither is rejected); when `kid` is present — even
alongside `jwk` — the key is resolved through the supplied lookup,
failing when the lookup misses; `jwk` is used only when `kid` is
absent. -/
theorem C7_amended_kid_precedence (ver : String) (jws : JoseJWS) (h : JoseHeader)
    (getKey : String → Option JWK)
    (hpr : jws.protectedPresent = true) (hpl : jws.payloadPresent = true)
    (hsg : jws.signaturePresent = true)
    (halg : jsTruthy h.alg = true) (hnonce : jsTruthy h.nonce = true)
    (hurl : jsTruthy h.url = true) :
    (h.kid = none ∧ h.jwk = none →
      joseVerify ver jws h getKey = .error "Missing field in protected header") ∧
    (∀ kid, h.kid = some kid → kid ≠ "" → getKey kid = none →
      joseVerify ver jws h getKey = .error "Cannot read property key of null") ∧
    (∀ kid k, h.kid = some kid → kid ≠ "" → getKey kid = some k → ver ≠ "le" →
      joseVerify ver jws h getKey = .ok k) ∧
    (∀ k, h.kid = none → h.jwk = some k → ver ≠ "le" →
      joseVerify ver jws h getKey = .ok k) := by
  refine ⟨?_, ?_, ?_, ?_⟩
  · rintro ⟨hkid, hjwk⟩
    simp [joseVerify, hpr, hpl, hsg, halg, hnonce, hkid, hjwk, jsTruthy]
  · intro kid hkid hne hmiss
    have hks : jsTruthy (some kid) = true := by simp [jsTruthy, hne]
    simp [joseVerify, hpr, hpl, hsg, halg, hnonce, hurl, hkid, hks, hmiss]
  · intro kid k hkid hne hget hver
    have hks : jsTruthy (some kid) = true := by simp [jsTruthy, hne]
    simp [joseVerify, hpr, hpl, hsg, halg, hnonce, hurl, hkid, hks, hget, hver]
  · intro k hkid hjwk hver
    have hkf : jsTruthy (none : Option String) = false := by simp [jsTruthy]
    simp [joseVerify, hpr, hpl, hsg, halg, hnonce, hurl, hkid, hkf, hjwk, hver]

/-- Claim C7 witness: a `kid`-only header resolves through the lookup. -/
theorem C7_witness :
    joseVerify "ietf-draft" jwsOK
      { alg := some "ES256", jwk := none,
        kid := some "http://acme-v02.api.letsencrypt.org/acme/reg/tp1",
        nonce := some "nonce1", url := some "http://localhost/new-app" } lookupC7
      = .ok ⟨"resolved-jwk", 2048⟩ :=
  (C7_amended_kid_precedence "ietf-draft" jwsOK _ lookupC7 rfl rfl rfl (by decide)
      (by decide) (by decide)).2.2.1
    "http://acme-v02.api.letsencrypt.org/acme/reg/tp1" ⟨"resolved-jwk", 2048⟩
    rfl (by decide) (by decide) (by decide)

/-! ## Claim C8 -/

def authzC8 : Authorization :=
  { id := "authz-c8", status := "pending", url := "http://localhost/authz/authz-c8",
    thumbprint := "tp-c8", identifierValue := "example.com", expires := 1000,
    challengeObj := [⟨"auto", "pending"⟩],
    challenges := [⟨"auto", "pending", "http://localhost/authz/authz-c8/0"⟩] }

def dbC8 : DB :=
  { regs := [{ id := "tp-c8", key := "jwk-c8", contact := none }], authzs := [authzC8] }

/-- A successful update-authz request whose body carries a payload. -/
def reqC8 : AuthzRequest :=
  { paramsId := "authz-c8", paramsIndex := some 0, thumbprint := "tp-c8",
    payload := some "key-authz-token" }

/-- Claim C8: the three steps do run in the claimed order and the
response is emitted last with the challenge JSON — but the challenge
update hook is invoked with `res.payload` (the response object's absent
field, i.e. `undefined`), not with the request's parsed payload as the
claim states. -/
theorem C8_hook_receives_res_payload :
    (updateAuthz dbC8 0 reqC8).1
      = [.challengeUpdate 0 none, .authzUpdate, .updateApps,
         .respond 200 (some ⟨"auto", "valid", "http://localhost/authz/authz-c8/0"⟩)] ∧
    reqC8.payload = some "key-authz-token" ∧
    (none : Option String) ≠ reqC8.payload := by
  refine ⟨rfl, rfl, by decide⟩

/-! ## Claim C9 -/

/-- Claim C9: within one process run the serial-number generator is
strictly increasing in numeric value across calls, and every serial it
returns is an even-length string of hexadecimal digits. -/
theorem C9_serials_strictly_increasing_even_hex (j k : Nat) (h : j < k) :
    hexStringVal (nthSerial j) < hexStringVal (nthSerial k) ∧
    (nthSerial j).length % 2 = 0 ∧ (nthSerial k).length % 2 = 0 ∧
    (nthSerial j).data.all isHexDigitChar = true ∧
    (nthSerial k).data.all isHexDigitChar = true := by
  refine ⟨?_, nthSerial_length_even j, nthSerial_length_even k,
    nthSerial_all_hex j, nthSerial_all_hex k⟩
  rw [hexStringVal_nthSerial, hexStringVal_nthSerial]
  omega

/-- Claim C9 witness: the first two serials of a process run. -/
theorem C9_witness :
    (0 : Nat) < 1 ∧
    (hexStringVal (nthSerial 0) < hexStringVal (nthSerial 1) ∧
     (nthSerial 0).length % 2 = 0 ∧ (nthSerial 1).length % 2 = 0 ∧
     (nthSerial 0).data.all isHexDigitChar = true ∧
     (nthSerial 1).data.all isHexDigitChar = true) :=
  ⟨by decide, C9_serials_strictly_increasing_even_hex 0 1 (by decide)⟩

/-! ## Claim C10 -/

/-- Claim C10: for a registered account and an id with no stored
authorization, `getAuthz` dereferences the null store lookup (a thrown
TypeError) instead of responding — and no input whatsoever makes the
handler respond 404. -/
theorem C10_getAuthz_null_dereference_no_404 (db : DB) (tp id : String)
    (reg : Registration) (hreg : db.getReg tp = some reg)
    (hmiss : db.getAuthz id = none) :
    getAuthz db tp id = .typeError "Cannot read property status of null" ∧
    ∀ (db' : DB) (tp' id' : String), (getAuthz db' tp' id').httpStatus ≠ some 404 := by
  constructor
  · unfold getAuthz
    rw [hreg, hmiss]
  · intro db' tp' id'
    unfold getAuthz
    cases db'.getReg tp' with
    | none => simp [GetAuthzResult.httpStatus]
    | some r =>
      cases db'.getAuthz id' with
      | none => simp [GetAuthzResult.httpStatus]
      | some a => simp [GetAuthzResult.httpStatus]

def dbC10 : DB := { regs := [{ id := "tp-c10", key := "jwk-c10", contact := none }] }

/-- Claim C10 witness: a concrete registered account asking for a
missing authorization id. -/
theorem C10_witness :
    getAuthz dbC10 "tp-c10" "missing" = .typeError "Cannot read property status of null" :=
  (C10_getAuthz_null_dereference_no_404 dbC10 "tp-c10" "missing"
    { id := "tp-c10", key := "jwk-c10", contact := none } rfl rfl).1

end NodeAcme
